import Mathlib

/-!
Verification development for the node-sharepoint-2013 connector.

The repository has two source modules:
- a list module with the recursive pagination engine (getArrayRecursively),
  the list fetchers (findAllLists, getList, getListAttachmentFiles), the
  attachment fan-out (getListWithAttachmentFiles) and a URL builder
  (getListItemAttachmentFileUrl);
- a files/token module with one-shot folder/file fetchers (getSubfolders,
  getFiles, callApi) and a credential cache (getToken, dropToken) built on
  an inspectable bluebird promise slot.

The embedding below models the HTTP transport as an explicit function from
URL and access token to a parsed response or an error, models bluebird
promise inspection (isFulfilled, isRejected, isCancelled, value) as an
explicit promise-state type, and models the recursion of the pagination
engine with explicit fuel: a result of none means the recursion did not
finish within the given fuel (the source has no bound and would simply keep
following continuation pointers).
-/

set_option autoImplicit false

namespace Sharepoint

/-- Transport or HTTP errors are opaque to the library; it never inspects
them, only propagates them. -/
abbrev Err := String

/-- The single-quote character used in the URL templates of the source. -/
def sq : String := String.singleton (Char.ofNat 39)

/-- The inner payload of a SharePoint OData verbose response: the field
d.results holds the rows of the current page and d.__next optionally holds
the URL of the next page. -/
structure PageEnvelope (α : Type) where
  results : List α
  nextUrl : Option String
  deriving DecidableEq, Repr

/-- A parsed API response body; the source reads apiResponse.d.results and
apiResponse.d.__next. -/
structure ApiResponse (α : Type) where
  d : PageEnvelope α
  deriving DecidableEq, Repr

/-- The transport collaborator (request-promise in the source): one GET of
apiUrl with a bearer accessToken, producing a parsed body or failing. -/
abbrev Fetch (α : Type) := String → String → Except Err (ApiResponse α)

/-- Embedding of getArrayRecursively from the list module. It fetches
apiUrl, collects the promises list [results] plus, when d.__next is
present, the recursive fetch of the next page, awaits them all (a rejection
anywhere rejects the whole chain), and merges the parts with
reduce concat starting from the empty array. Fuel bounds the recursion
depth: none means the chain of continuation pointers was longer than the
fuel, i.e. the source code would still be following pages. -/
def getArrayRecursively {α : Type} (fetch : Fetch α) (accessToken : String) :
    Nat → String → Option (Except Err (List α))
  | 0, _ => none
  | fuel + 1, apiUrl =>
    match fetch apiUrl accessToken with
    | .error e => some (.error e)
    | .ok apiResponse =>
      match apiResponse.d.nextUrl with
      | none =>
        some (.ok (List.foldl (fun finalArray part => finalArray ++ part) []
          [apiResponse.d.results]))
      | some nextUrl =>
        match getArrayRecursively fetch accessToken fuel nextUrl with
        | none => none
        | some (.error e) => some (.error e)
        | some (.ok nextResults) =>
          some (.ok (List.foldl (fun finalArray part => finalArray ++ part) []
            [apiResponse.d.results, nextResults]))

/-- Instrumentation of getArrayRecursively: the ordered list of URLs the
engine actually fetched, following exactly the same control flow. Used to
state that no URL is re-fetched (no retry) and that no follow-up fetch
happens without a continuation pointer. -/
def getArrayFetchTrace {α : Type} (fetch : Fetch α) (accessToken : String) :
    Nat → String → Option (List String)
  | 0, _ => none
  | fuel + 1, apiUrl =>
    match fetch apiUrl accessToken with
    | .error _ => some [apiUrl]
    | .ok apiResponse =>
      match apiResponse.d.nextUrl with
      | none => some [apiUrl]
      | some nextUrl =>
        match getArrayFetchTrace fetch accessToken fuel nextUrl with
        | none => none
        | some t => some (apiUrl :: t)

/-- A finite chain of server-side pages: page i is served at the i-th URL,
pages 1..N-1 carry a continuation pointer to the next URL, and page N
carries none. -/
inductive FetchChain {α : Type} (fetch : Fetch α) (accessToken : String) :
    List String → List (List α) → Prop where
  | last (u : String) (p : List α)
      (h : fetch u accessToken = .ok ⟨⟨p, none⟩⟩) :
      FetchChain fetch accessToken [u] [p]
  | cons (u u2 : String) (us : List String) (p : List α) (ps : List (List α))
      (h : fetch u accessToken = .ok ⟨⟨p, some u2⟩⟩)
      (tail : FetchChain fetch accessToken (u2 :: us) ps) :
      FetchChain fetch accessToken (u :: u2 :: us) (p :: ps)

/-- A chain of pages that ends in a transport failure: some pages with
continuation pointers, then a URL whose fetch fails with e. -/
inductive FetchChainErr {α : Type} (fetch : Fetch α) (accessToken : String) :
    List String → Err → Prop where
  | here (u : String) (e : Err)
      (h : fetch u accessToken = .error e) :
      FetchChainErr fetch accessToken [u] e
  | there (u u2 : String) (us : List String) (p : List α) (e : Err)
      (h : fetch u accessToken = .ok ⟨⟨p, some u2⟩⟩)
      (tail : FetchChainErr fetch accessToken (u2 :: us) e) :
      FetchChainErr fetch accessToken (u :: u2 :: us) e

/-- An attachment file record as documented in the list module. -/
structure AttachmentFile where
  FileName : String
  ServerRelativeUrl : String
  deriving DecidableEq, Repr

/-- A list item record as documented in the list module: the Id keys the
per-item attachment fetch, and the AttachmentFiles field starts absent and
is assigned in place by getListWithAttachmentFiles. -/
structure SharepointListItem where
  Id : Nat
  Title : String
  AttachmentFiles : Option (List AttachmentFile)
  deriving DecidableEq, Repr

/-- Embedding of findAllLists: one fully paginated fetch of the Lists
collection URL. -/
def findAllLists {α : Type} (fetch : Fetch α)
    (sharepointResourceUrl siteName accessToken : String) (fuel : Nat) :
    Option (Except Err (List α)) :=
  getArrayRecursively fetch accessToken fuel
    (sharepointResourceUrl ++ "/sites/" ++ siteName ++ "/_api/Web/Lists")

/-- Embedding of getList: one fully paginated fetch of the Items collection
of the list identified by listGuid. -/
def getList (fetch : Fetch SharepointListItem)
    (sharepointResourceUrl siteName listGuid accessToken : String) (fuel : Nat) :
    Option (Except Err (List SharepointListItem)) :=
  getArrayRecursively fetch accessToken fuel
    (sharepointResourceUrl ++ "/sites/" ++ siteName ++ "/_api/Web/Lists(guid"
      ++ sq ++ listGuid ++ sq ++ ")/Items")

/-- Embedding of getListAttachmentFiles: one fully paginated fetch of the
AttachmentFiles collection of one list item. -/
def getListAttachmentFiles (fetch : Fetch AttachmentFile)
    (sharepointResourceUrl siteName listGuid : String) (listItemId : Nat)
    (accessToken : String) (fuel : Nat) :
    Option (Except Err (List AttachmentFile)) :=
  getArrayRecursively fetch accessToken fuel
    (sharepointResourceUrl ++ "/sites/" ++ siteName ++ "/_api/Web/Lists(guid"
      ++ sq ++ listGuid ++ sq ++ ")/Items(" ++ toString listItemId
      ++ ")/AttachmentFiles")

/-- Embedding of getListItemAttachmentFileUrl: pure URL assembly. -/
def getListItemAttachmentFileUrl
    (sharepointResourceUrl siteName listGuid : String) (listItemId : Nat)
    (attachmentFilename : String) : String :=
  sharepointResourceUrl ++ "/sites/" ++ siteName ++ "/_api/Web/Lists(guid"
    ++ sq ++ listGuid ++ sq ++ ")/Items(" ++ toString listItemId
    ++ ")/AttachmentFiles(" ++ sq ++ attachmentFilename ++ sq ++ ")/$value"

/-- Bluebird Promise.all over the fueled results: it rejects as soon as any
member rejects, fulfils with all values once every member fulfils, and
otherwise (some member still pending, i.e. out of fuel) stays pending. -/
def promiseAll {γ : Type} : List (Option (Except Err γ)) → Option (Except Err (List γ))
  | [] => some (.ok [])
  | x :: xs =>
    match x with
    | some (.error e) => some (.error e)
    | some (.ok v) =>
      match promiseAll xs with
      | some (.ok vs) => some (.ok (v :: vs))
      | some (.error e) => some (.error e)
      | none => none
    | none =>
      match promiseAll xs with
      | some (.error e) => some (.error e)
      | _ => none

/-- Embedding of getListWithAttachmentFiles: fetch the whole list, then for
every item fan out a paginated fetch of its AttachmentFiles keyed by the
item Id, assign each result onto its own item (the source mutates
sharepointListItem.AttachmentFiles in place, keeping the parent order), and
return the whole structure only after Promise.all of the sub-fetches; a
rejected sub-fetch rejects the whole operation. -/
def getListWithAttachmentFiles (fetch : Fetch SharepointListItem)
    (fetchAtt : Fetch AttachmentFile)
    (sharepointResourceUrl siteName listGuid accessToken : String) (fuel : Nat) :
    Option (Except Err (List SharepointListItem)) :=
  match getList fetch sharepointResourceUrl siteName listGuid accessToken fuel with
  | none => none
  | some (.error e) => some (.error e)
  | some (.ok sharepointList) =>
    match promiseAll (sharepointList.map fun sharepointListItem =>
        getListAttachmentFiles fetchAtt sharepointResourceUrl siteName listGuid
          sharepointListItem.Id accessToken fuel) with
    | none => none
    | some (.error e) => some (.error e)
    | some (.ok attachmentLists) =>
      some (.ok (List.zipWith
        (fun sharepointListItem attachmentFiles =>
          { sharepointListItem with AttachmentFiles := some attachmentFiles })
        sharepointList attachmentLists))

/-- Embedding of callApi from the files module: one single fetch of apiUrl,
returning apiResponse.d.results and nothing else; d.__next is never read. -/
def callApi {α : Type} (fetch : Fetch α) (apiUrl accessToken : String) :
    Except Err (List α) :=
  match fetch apiUrl accessToken with
  | .error e => .error e
  | .ok apiResponse => .ok apiResponse.d.results

/-- The URL getSubfolders builds: the folder path is prefixed with the site
path unless it already starts with it (folderPath.indexOf of the site path
being 0 in the source). -/
def getSubfoldersApiUrl (sharepointResourceUrl siteName folderPath : String) : String :=
  let fp := (if ("/sites/" ++ siteName).isPrefixOf folderPath then ""
    else "/sites/" ++ siteName ++ "/") ++ folderPath
  sharepointResourceUrl ++ "/sites/" ++ siteName
    ++ "/_api/Web/GetFolderByServerRelativeUrl(" ++ sq ++ fp ++ sq ++ ")/Folders"

/-- The URL getFiles builds, same folder-path normalisation. -/
def getFilesApiUrl (sharepointResourceUrl siteName folderPath : String) : String :=
  let fp := (if ("/sites/" ++ siteName).isPrefixOf folderPath then ""
    else "/sites/" ++ siteName ++ "/") ++ folderPath
  sharepointResourceUrl ++ "/sites/" ++ siteName
    ++ "/_api/Web/GetFolderByServerRelativeUrl(" ++ sq ++ fp ++ sq ++ ")/Files"

/-- Embedding of getSubfolders: one callApi on the Folders URL. -/
def getSubfolders {α : Type} (fetch : Fetch α)
    (sharepointResourceUrl siteName folderPath accessToken : String) :
    Except Err (List α) :=
  callApi fetch (getSubfoldersApiUrl sharepointResourceUrl siteName folderPath)
    accessToken

/-- Embedding of getFiles: one callApi on the Files URL. -/
def getFiles {α : Type} (fetch : Fetch α)
    (sharepointResourceUrl siteName folderPath accessToken : String) :
    Except Err (List α) :=
  callApi fetch (getFilesApiUrl sharepointResourceUrl siteName folderPath)
    accessToken

/-- The token response of the identity provider; expiresOn is a date string
that the source feeds to Date.parse. -/
structure TokenResponse where
  accessToken : String
  expiresOn : String
  deriving DecidableEq, Repr

/-- The observable state of the bluebird promise held in the cache slot
(tokenRequestPromise in the source): still pending (an in-flight
acquisition, tagged so distinct acquisitions are distinguishable),
fulfilled with a token response, rejected with an error, or cancelled. -/
inductive PromiseState where
  | pending (id : Nat)
  | fulfilled (value : TokenResponse)
  | rejected (err : Err)
  | cancelled
  deriving DecidableEq, Repr

/-- Bluebird isFulfilled. -/
def PromiseState.isFulfilled : PromiseState → Bool
  | .fulfilled _ => true
  | _ => false

/-- Bluebird isRejected. -/
def PromiseState.isRejected : PromiseState → Bool
  | .rejected _ => true
  | _ => false

/-- Bluebird isCancelled. -/
def PromiseState.isCancelled : PromiseState → Bool
  | .cancelled => true
  | _ => false

/-- Bluebird value: only ever called by the source under isFulfilled; the
default on other states models that bluebird would throw there. -/
def PromiseState.value : PromiseState → TokenResponse
  | .fulfilled v => v
  | _ => { accessToken := "", expiresOn := "" }

/-- Embedding of getToken as one step of a state machine over the cache
slot. dateParse models Date.parse, now models new Date().getTime(), and
acquireToken is the promise the identity provider hands back if an
acquisition is issued (acquireTokenWithUsernamePasswordAsync). The result
is the returned promise, the new slot content, and whether a downstream
acquisition request was issued by this call. -/
def getToken (dateParse : String → Int) (now : Int)
    (tokenRequestPromise : Option PromiseState) (acquireToken : PromiseState) :
    PromiseState × Option PromiseState × Bool :=
  let afterExpiryCheck : Option PromiseState :=
    match tokenRequestPromise with
    | some p =>
      if p.isFulfilled then
        let tokenExpired := now > dateParse p.value.expiresOn + 30000
        if tokenExpired then none else some p
      else some p
    | none => none
  match afterExpiryCheck with
  | none => (acquireToken, some acquireToken, true)
  | some p =>
    if p.isCancelled || p.isRejected then (acquireToken, some acquireToken, true)
    else (p, some p, false)

/-- Embedding of dropToken: unconditionally clears the slot. -/
def dropToken (_tokenRequestPromise : Option PromiseState) : Option PromiseState :=
  none

/-- A sequence of getToken calls at the given clock readings, threading the
cache slot and counting how many downstream acquisition requests were
issued; every issued acquisition hands back the same acquireToken promise
(the scenario of one acquisition window). -/
def runGetTokens (dateParse : String → Int) (acquireToken : PromiseState) :
    List Int → Option PromiseState →
    List PromiseState × Option PromiseState × Nat
  | [], st => ([], st, 0)
  | now :: rest, st =>
    match getToken dateParse now st acquireToken with
    | (r, st1, issued) =>
      match runGetTokens dateParse acquireToken rest st1 with
      | (rs, st2, n) => (r :: rs, st2, (if issued then 1 else 0) + n)

lemma getArrayRecursively_chain {α : Type} {fetch : Fetch α} {accessToken : String}
    {urls : List String} {pages : List (List α)}
    (hc : FetchChain fetch accessToken urls pages) :
    ∀ fuel, urls.length ≤ fuel →
      getArrayRecursively fetch accessToken fuel urls.headI = some (.ok pages.flatten) ∧
      getArrayFetchTrace fetch accessToken fuel urls.headI = some urls := by
  induction hc with
  | last u p h =>
    intro fuel hfuel
    match fuel, hfuel with
    | fuel + 1, _ =>
      simp [getArrayRecursively, getArrayFetchTrace, h]
  | cons u u2 us p ps h tail ih =>
    intro fuel hfuel
    match fuel, hfuel with
    | fuel + 1, hfuel =>
      have hlen : (u2 :: us).length ≤ fuel := by
        simpa [Nat.succ_le_succ_iff] using hfuel
      obtain ⟨ih1, ih2⟩ := ih fuel hlen
      simp only [List.headI] at ih1 ih2 ⊢
      simp [getArrayRecursively, getArrayFetchTrace, h, ih1, ih2]

lemma getArrayRecursively_chainErr {α : Type} {fetch : Fetch α} {accessToken : String}
    {urls : List String} {e : Err}
    (hc : FetchChainErr fetch accessToken urls e) :
    ∀ fuel, urls.length ≤ fuel →
      getArrayRecursively fetch accessToken fuel urls.headI = some (.error e) ∧
      getArrayFetchTrace fetch accessToken fuel urls.headI = some urls := by
  induction hc with
  | here u e h =>
    intro fuel hfuel
    match fuel, hfuel with
    | fuel + 1, _ =>
      simp [getArrayRecursively, getArrayFetchTrace, h]
  | there u u2 us p e h tail ih =>
    intro fuel hfuel
    match fuel, hfuel with
    | fuel + 1, hfuel =>
      have hlen : (u2 :: us).length ≤ fuel := by
        simpa [Nat.succ_le_succ_iff] using hfuel
      obtain ⟨ih1, ih2⟩ := ih fuel hlen
      simp only [List.headI] at ih1 ih2 ⊢
      simp [getArrayRecursively, getArrayFetchTrace, h, ih1, ih2]

lemma promiseAll_map_ok {β γ : Type} (l : List β) (g : β → Option (Except Err γ))
    (f : β → γ) (h : ∀ x ∈ l, g x = some (.ok (f x))) :
    promiseAll (l.map g) = some (.ok (l.map f)) := by
  induction l with
  | nil => rfl
  | cons x xs ih =>
    have hx := h x (List.mem_cons_self x xs)
    have hxs := ih (fun y hy => h y (List.mem_cons_of_mem x hy))
    simp [promiseAll, hx, hxs]

lemma promiseAll_mem_error {γ : Type} {l : List (Option (Except Err γ))} {e : Err}
    (h : some (Except.error e) ∈ l) :
    ∃ e2, promiseAll l = some (.error e2) := by
  induction l with
  | nil => simp at h
  | cons x xs ih =>
    rcases List.mem_cons.mp h with hx | hxs
    · exact ⟨e, by rw [← hx]; rfl⟩
    · obtain ⟨e2, he2⟩ := ih hxs
      match x with
      | none => exact ⟨e2, by simp [promiseAll, he2]⟩
      | some (.error e3) => exact ⟨e3, rfl⟩
      | some (.ok v) => exact ⟨e2, by simp [promiseAll, he2]⟩

lemma zipWith_map_self {β γ δ : Type} (f : β → γ → δ) (g : β → γ) (l : List β) :
    List.zipWith f l (l.map g) = l.map fun x => f x (g x) := by
  induction l with
  | nil => rfl
  | cons x xs ih => simp [ih]

/-- C1: for every chain of N server-side pages with item lists s1..sN, where
pages 1..N-1 carry a continuation pointer and page N does not,
getArrayRecursively returns exactly the concatenation of the pages in page
order (so exactly s1+...+sN records, none reordered, dropped or added). -/
theorem getArrayRecursively_paginates {α : Type} (fetch : Fetch α) (accessToken : String)
    (urls : List String) (pages : List (List α))
    (hc : FetchChain fetch accessToken urls pages)
    (fuel : Nat) (hfuel : urls.length ≤ fuel) :
    getArrayRecursively fetch accessToken fuel urls.headI = some (.ok pages.flatten) ∧
    pages.flatten.length = (pages.map List.length).sum :=
  ⟨(getArrayRecursively_chain hc fuel hfuel).1, by simp⟩

theorem getArrayRecursively_paginates_witness :
    getArrayRecursively
        (fun url _ => if url = "u2" then .ok ⟨⟨["c"], none⟩⟩
          else .ok ⟨⟨["a", "b"], some "u2"⟩⟩) "tok" 2 (["u1", "u2"] : List String).headI
      = some (.ok ([["a", "b"], ["c"]] : List (List String)).flatten) ∧
    ([["a", "b"], ["c"]] : List (List String)).flatten.length
      = (([["a", "b"], ["c"]] : List (List String)).map List.length).sum :=
  getArrayRecursively_paginates _ "tok" ["u1", "u2"] [["a", "b"], ["c"]]
    (FetchChain.cons "u1" "u2" [] _ _ rfl
      (FetchChain.last "u2" _ rfl)) 2 (by decide)

/-- C8: a single page carrying no continuation pointer is returned
unchanged, and the fetch trace is exactly the one requested URL: no
follow-up (recursive) fetch happens. -/
theorem getArrayRecursively_single_page {α : Type} (fetch : Fetch α)
    (accessToken u : String) (rs : List α)
    (h : fetch u accessToken = .ok ⟨⟨rs, none⟩⟩) :
    getArrayRecursively fetch accessToken 1 u = some (.ok rs) ∧
    getArrayFetchTrace fetch accessToken 1 u = some [u] := by
  simp [getArrayRecursively, getArrayFetchTrace, h]

theorem getArrayRecursively_single_page_witness :
    getArrayRecursively (fun _ _ => .ok ⟨⟨["a"], none⟩⟩ : Fetch String) "t" 1 "u"
        = some (.ok ["a"]) ∧
    getArrayFetchTrace (fun _ _ => .ok ⟨⟨["a"], none⟩⟩ : Fetch String) "t" 1 "u"
        = some ["u"] :=
  getArrayRecursively_single_page _ "t" "u" ["a"] rfl

/-- C9: a transport failure anywhere along the page chain propagates as the
rejection of the whole fetch, unmodified; the trace shows each URL of the
chain was fetched exactly once in order (no retry) and no partial result is
produced. -/
theorem getArrayRecursively_propagates_error {α : Type} (fetch : Fetch α)
    (accessToken : String) (urls : List String) (e : Err)
    (hc : FetchChainErr fetch accessToken urls e)
    (fuel : Nat) (hfuel : urls.length ≤ fuel) :
    getArrayRecursively fetch accessToken fuel urls.headI = some (.error e) ∧
    getArrayFetchTrace fetch accessToken fuel urls.headI = some urls :=
  getArrayRecursively_chainErr hc fuel hfuel

theorem getArrayRecursively_propagates_error_witness :
    getArrayRecursively
        (fun url _ => if url = "u2" then .error "boom"
          else .ok ⟨⟨["a"], some "u2"⟩⟩ : Fetch String) "tok" 2
        (["u1", "u2"] : List String).headI
      = some (.error "boom") ∧
    getArrayFetchTrace
        (fun url _ => if url = "u2" then .error "boom"
          else .ok ⟨⟨["a"], some "u2"⟩⟩ : Fetch String) "tok" 2
        (["u1", "u2"] : List String).headI
      = some ["u1", "u2"] :=
  getArrayRecursively_propagates_error _ "tok" ["u1", "u2"] "boom"
    (FetchChainErr.there "u1" "u2" [] ["a"] "boom" rfl
      (FetchChainErr.here "u2" "boom" rfl)) 2 (by decide)

/-- C2: while an acquisition is in flight and not yet settled (the slot
holds a pending promise), every getToken call of the window returns that
same pending promise and issues no new downstream acquisition; starting
from an empty slot, a whole window of calls issues exactly one downstream
acquisition in total. -/
theorem getToken_single_flight (dateParse : String → Int) (i : Nat) (nows : List Int) :
    runGetTokens dateParse (.pending i) nows (some (.pending i))
        = (nows.map fun _ => PromiseState.pending i, some (.pending i), 0) ∧
    ∀ now : Int, runGetTokens dateParse (.pending i) (now :: nows) none
        = (PromiseState.pending i :: (nows.map fun _ => PromiseState.pending i),
            some (.pending i), 1) := by
  have h1 : runGetTokens dateParse (.pending i) nows (some (.pending i))
      = (nows.map fun _ => PromiseState.pending i, some (.pending i), 0) := by
    induction nows with
    | nil => rfl
    | cons now rest ih =>
      simp [runGetTokens, getToken, PromiseState.isFulfilled,
        PromiseState.isCancelled, PromiseState.isRejected, ih]
  refine ⟨h1, fun now => ?_⟩
  simp [runGetTokens, getToken, h1]

/-- C3: with a fulfilled cached token, getToken issues a fresh downstream
acquisition exactly when now is beyond the parsed expiresOn plus the 30000
millisecond grace margin, and otherwise returns the cached promise without
issuing anything; in particular a token 40 seconds past expiresOn is
discarded and reacquired and a token 10 seconds past expiresOn is served
from cache. -/
theorem getToken_expiry_grace (dateParse : String → Int) (now : Int)
    (v : TokenResponse) (acq : PromiseState) :
    (getToken dateParse now (some (.fulfilled v)) acq = (acq, some acq, true)
        ↔ now > dateParse v.expiresOn + 30000) ∧
    (getToken dateParse now (some (.fulfilled v)) acq
          = (.fulfilled v, some (.fulfilled v), false)
        ↔ ¬ now > dateParse v.expiresOn + 30000) ∧
    (dateParse v.expiresOn = now - 40000 →
      getToken dateParse now (some (.fulfilled v)) acq = (acq, some acq, true)) ∧
    (dateParse v.expiresOn = now - 10000 →
      getToken dateParse now (some (.fulfilled v)) acq
        = (.fulfilled v, some (.fulfilled v), false)) := by
  by_cases h : now > dateParse v.expiresOn + 30000
  · refine ⟨by simp [getToken, PromiseState.isFulfilled, PromiseState.value, h],
      by simp [getToken, PromiseState.isFulfilled, PromiseState.value, h],
      fun _ => by simp [getToken, PromiseState.isFulfilled, PromiseState.value, h],
      fun heq => absurd h ?_⟩
    rw [heq]
    omega
  · refine ⟨by simp [getToken, PromiseState.isFulfilled, PromiseState.isCancelled,
        PromiseState.isRejected, PromiseState.value, h],
      by simp [getToken, PromiseState.isFulfilled, PromiseState.isCancelled,
        PromiseState.isRejected, PromiseState.value, h],
      fun heq => absurd h ?_, fun _ => by
        simp [getToken, PromiseState.isFulfilled, PromiseState.isCancelled,
          PromiseState.isRejected, PromiseState.value, h]⟩
    simp only [not_not]
    rw [heq]
    omega

theorem getToken_expiry_grace_witness :
    getToken (fun _ => 60000) 100000 (some (.fulfilled ⟨"a", "e"⟩)) (.pending 0)
        = (.pending 0, some (.pending 0), true) ∧
    getToken (fun _ => 90000) 100000 (some (.fulfilled ⟨"a", "e"⟩)) (.pending 0)
        = (.fulfilled ⟨"a", "e"⟩, some (.fulfilled ⟨"a", "e"⟩), false) :=
  ⟨(getToken_expiry_grace (fun _ => 60000) 100000 ⟨"a", "e"⟩ (.pending 0)).2.2.1
      (by decide),
    (getToken_expiry_grace (fun _ => 90000) 100000 ⟨"a", "e"⟩ (.pending 0)).2.2.2
      (by decide)⟩

/-- C6: a cached acquisition that settled rejected or cancelled is
discarded by the next getToken call, which issues a fresh downstream
acquisition and returns the new promise, not the stale failure. -/
theorem getToken_discards_settled_failure (dateParse : String → Int) (now : Int)
    (e : Err) (acq : PromiseState) :
    getToken dateParse now (some (.rejected e)) acq = (acq, some acq, true) ∧
    getToken dateParse now (some .cancelled) acq = (acq, some acq, true) := by
  constructor <;>
    simp [getToken, PromiseState.isFulfilled, PromiseState.isCancelled,
      PromiseState.isRejected]

/-- C7: dropToken clears the slot no matter what it held, and the getToken
call right after it always issues a fresh downstream acquisition. -/
theorem dropToken_forces_fresh (st : Option PromiseState)
    (dateParse : String → Int) (now : Int) (acq : PromiseState) :
    dropToken st = none ∧
    getToken dateParse now (dropToken st) acq = (acq, some acq, true) := by
  exact ⟨rfl, by simp [dropToken, getToken]⟩

/-- C4: when the parent list fetch yields the items and every per-item
attachment fetch yields its own attachment list, the attach operation
returns the parent items in their original order, each with its
AttachmentFiles field set to exactly its own fetched attachments. -/
theorem getListWithAttachmentFiles_populates
    (fetch : Fetch SharepointListItem) (fetchAtt : Fetch AttachmentFile)
    (sharepointResourceUrl siteName listGuid accessToken : String) (fuel : Nat)
    (items : List SharepointListItem) (attOf : Nat → List AttachmentFile)
    (hlist : getList fetch sharepointResourceUrl siteName listGuid accessToken fuel
      = some (.ok items))
    (hatt : ∀ item ∈ items,
      getListAttachmentFiles fetchAtt sharepointResourceUrl siteName listGuid
          item.Id accessToken fuel
        = some (.ok (attOf item.Id))) :
    getListWithAttachmentFiles fetch fetchAtt sharepointResourceUrl siteName
        listGuid accessToken fuel
      = some (.ok (items.map fun item =>
          { item with AttachmentFiles := some (attOf item.Id) })) := by
  have hall := promiseAll_map_ok items
    (fun item => getListAttachmentFiles fetchAtt sharepointResourceUrl siteName
      listGuid item.Id accessToken fuel)
    (fun item => attOf item.Id) hatt
  simp [getListWithAttachmentFiles, hlist, hall, zipWith_map_self]

theorem getListWithAttachmentFiles_populates_witness :
    getListWithAttachmentFiles
        (fun _ _ => .ok ⟨⟨[⟨3, "row", none⟩], none⟩⟩)
        (fun _ _ => .ok ⟨⟨[⟨"week19.pdf", "/a/week19.pdf"⟩], none⟩⟩)
        "https://sp" "site" "guid" "tok" 1
      = some (.ok [⟨3, "row", some [⟨"week19.pdf", "/a/week19.pdf"⟩]⟩]) :=
  getListWithAttachmentFiles_populates _ _ "https://sp" "site" "guid" "tok" 1
    [⟨3, "row", none⟩] (fun _ => [⟨"week19.pdf", "/a/week19.pdf"⟩]) rfl
    (fun _ _ => rfl)

/-- C5: if the parent list fetch succeeds but any one per-item attachment
fetch fails, the whole attach operation is a rejection: the caller never
receives a partially attached list. -/
theorem getListWithAttachmentFiles_failfast
    (fetch : Fetch SharepointListItem) (fetchAtt : Fetch AttachmentFile)
    (sharepointResourceUrl siteName listGuid accessToken : String) (fuel : Nat)
    (items : List SharepointListItem) (item : SharepointListItem) (e : Err)
    (hlist : getList fetch sharepointResourceUrl siteName listGuid accessToken fuel
      = some (.ok items))
    (hmem : item ∈ items)
    (herr : getListAttachmentFiles fetchAtt sharepointResourceUrl siteName listGuid
        item.Id accessToken fuel
      = some (.error e)) :
    ∃ e2, getListWithAttachmentFiles fetch fetchAtt sharepointResourceUrl siteName
        listGuid accessToken fuel
      = some (.error e2) := by
  have hm : some (Except.error e) ∈ items.map (fun it =>
      getListAttachmentFiles fetchAtt sharepointResourceUrl siteName listGuid
        it.Id accessToken fuel) :=
    herr ▸ List.mem_map_of_mem _ hmem
  obtain ⟨e2, he2⟩ := promiseAll_mem_error hm
  exact ⟨e2, by simp [getListWithAttachmentFiles, hlist, he2]⟩

theorem getListWithAttachmentFiles_failfast_witness :
    ∃ e2, getListWithAttachmentFiles
        (fun _ _ => .ok ⟨⟨[⟨3, "row", none⟩], none⟩⟩)
        (fun _ _ => .error "attachment fetch failed")
        "https://sp" "site" "guid" "tok" 1
      = some (.error e2) :=
  getListWithAttachmentFiles_failfast _ _ "https://sp" "site" "guid" "tok" 1
    [⟨3, "row", none⟩] ⟨3, "row", none⟩ "attachment fetch failed" rfl
    (List.mem_singleton.mpr rfl) rfl

/-- C10: getSubfolders and getFiles each issue their one request through
callApi and hand back only that responses results field: even when the
response carries a continuation pointer, it is never read, so only the
first page is returned. -/
theorem getSubfolders_getFiles_first_page_only {α : Type} (fetch : Fetch α)
    (sharepointResourceUrl siteName folderPath accessToken : String)
    (rs fs : List α) (nu nu2 : String)
    (hsub : fetch (getSubfoldersApiUrl sharepointResourceUrl siteName folderPath)
      accessToken = .ok ⟨⟨rs, some nu⟩⟩)
    (hfiles : fetch (getFilesApiUrl sharepointResourceUrl siteName folderPath)
      accessToken = .ok ⟨⟨fs, some nu2⟩⟩) :
    getSubfolders fetch sharepointResourceUrl siteName folderPath accessToken
        = .ok rs ∧
    getFiles fetch sharepointResourceUrl siteName folderPath accessToken
        = .ok fs := by
  exact ⟨by simp [getSubfolders, callApi, hsub], by simp [getFiles, callApi, hfiles]⟩

theorem getSubfolders_getFiles_first_page_only_witness :
    getSubfolders (fun _ _ => .ok ⟨⟨["page1"], some "more"⟩⟩ : Fetch String)
        "https://sp" "site" "docs" "tok" = .ok ["page1"] ∧
    getFiles (fun _ _ => .ok ⟨⟨["page1"], some "more"⟩⟩ : Fetch String)
        "https://sp" "site" "docs" "tok" = .ok ["page1"] :=
  getSubfolders_getFiles_first_page_only _ "https://sp" "site" "docs" "tok"
    ["page1"] ["page1"] "more" "more" rfl rfl

end Sharepoint
